import Mathlib

/-!
Verification development for the gh-export repository synchronization engine
(src/download.rs, src/config.rs, src/main.rs), shallowly embedded in Lean.

External collaborators (the GitHub HTTP client, libgit2 transport, the
filesystem, the statvfs syscall) are modelled as oracles supplied through a
`SyncEnv` record; the control flow of the Rust functions is translated
directly.
-/

/-- Mirrors `Owner` in src/github.rs (fields unused by the engine omitted). -/
structure Owner where
  login : String
  id : Nat
  deriving DecidableEq, Repr

/-- Mirrors `Repository` in src/github.rs (fields unused by the sync engine
omitted). `size` is the estimated size in kibibytes, as reported by the API. -/
structure Repository where
  id : Nat
  name : String
  full_name : String
  owner : Owner
  fork : Bool
  clone_url : String
  size : Nat
  archived : Bool
  default_branch : String
  deriving DecidableEq, Repr

/-- Mirrors `DownloadResult` in src/download.rs. -/
inductive DownloadResult where
  | Success : DownloadResult
  | Skipped : String → DownloadResult
  | Failed : String → DownloadResult
  deriving DecidableEq, Repr

/-- Mirrors the variants of `GhExportError` (src/error.rs) that the engine and
its caller construct. -/
inductive GhExportError where
  | Git : String → GhExportError
  | Io : String → GhExportError
  | Config : String → GhExportError
  | Download : String → GhExportError
  | InsufficientSpace : (needed : Nat) → (available : Nat) → GhExportError
  deriving DecidableEq, Repr

/-- Mirrors the `Downloader` struct in src/download.rs; the output directory is
modelled as a path, i.e. a list of components, and the progress tracker (pure
rendering state) is dropped. -/
structure Downloader where
  output_dir : List String
  token : String
  shallow : Bool
  deriving DecidableEq, Repr

/-- Oracle for the external world a batch runs against: filesystem path
existence at decision time, the outcome of the libgit2 clone transport for a
repository into a target path, the outcome of the fetch/fast-forward update of
the repository at a path, and the wall-clock instant at which each
repository's task completes (used only to express the spec's notion of
completion order). -/
structure SyncEnv where
  pathExists : List String → Bool
  cloneResult : Repository → List String → Except String Unit
  updateResult : List String → Except String Unit
  completionTime : String → Nat

/-- The target local path `output_dir/owner.login/name` computed at the top of
`Downloader::download_repository` (src/download.rs line 79). -/
def repoPath (d : Downloader) (repo : Repository) : List String :=
  d.output_dir ++ [repo.owner.login, repo.name]

/-- The clone-vs-update decision of `Downloader::download_repository`
(src/download.rs line 81): branch on whether the target path exists. -/
inductive SyncAction where
  | clone : SyncAction
  | update : SyncAction
  deriving DecidableEq, Repr

/-- The Deciding step of the Worker: present path selects update, absent path
selects clone (src/download.rs lines 81 and 93). -/
def decide_action (d : Downloader) (env : SyncEnv) (repo : Repository) : SyncAction :=
  if env.pathExists (repoPath d repo) then SyncAction.update else SyncAction.clone

/-- Mirrors `Downloader::download_repository` (src/download.rs lines 78-106):
if the target path exists, run the update and map `Ok` to `Success`, `Err e` to
`Failed ("Update failed: " ++ e)`; otherwise run the clone and map `Err e` to
`Failed ("Clone failed: " ++ e)`. -/
def download_repository (d : Downloader) (env : SyncEnv) (repo : Repository) :
    DownloadResult :=
  let repo_path := repoPath d repo
  if env.pathExists repo_path then
    match env.updateResult repo_path with
    | Except.ok _ => DownloadResult.Success
    | Except.error e => DownloadResult.Failed ("Update failed: " ++ e)
  else
    match env.cloneResult repo repo_path with
    | Except.ok _ => DownloadResult.Success
    | Except.error e => DownloadResult.Failed ("Clone failed: " ++ e)

/-- The spawn loop of `Downloader::download_repositories` (src/download.rs
lines 50-61): one task per input repository, in input order, each producing the
pair `(full_name, download_repository ..)`. -/
def spawn_tasks (d : Downloader) (env : SyncEnv) (repos : List Repository) :
    List (String × DownloadResult) :=
  repos.map (fun repo => (repo.full_name, download_repository d env repo))

/-- The collection loop of `Downloader::download_repositories` (src/download.rs
lines 63-73): await each task handle in the order the handles were stored and
push its pair onto the results vector. -/
def collect_results (tasks : List (String × DownloadResult)) :
    List (String × DownloadResult) :=
  tasks.foldl (fun results t => results ++ [t]) []

/-- Mirrors `Downloader::download_repositories` (src/download.rs lines 42-76):
spawn one task per repository, then collect the results. In the model no task
panics, so the join-error branch (line 69) never fires. -/
def download_repositories (d : Downloader) (env : SyncEnv)
    (repositories : List Repository) : List (String × DownloadResult) :=
  collect_results (spawn_tasks d env repositories)

/-- Filesystem effect of a completed clone: `RepoBuilder::clone`
(src/download.rs line 146) creates the target path, so it exists afterwards. -/
def mark_cloned (env : SyncEnv) (p : List String) : SyncEnv :=
  { env with pathExists := fun q => if q = p then true else env.pathExists q }

/-- Mirrors `check_disk_space` (src/download.rs lines 219-236); the available
byte count obtained from `statvfs` is passed in as an oracle value. -/
def check_disk_space (available : Nat) (required_bytes : Nat) :
    Except GhExportError Unit :=
  if available < required_bytes then
    Except.error (GhExportError.InsufficientSpace required_bytes available)
  else
    Except.ok ()

/-- The estimated byte total computed in `run_export` (src/main.rs line 223):
`repositories.iter().map(|r| r.size * 1024).sum()`. -/
def total_estimated_bytes (repos : List Repository) : Nat :=
  (repos.map (fun r => r.size * 1024)).sum

/-- The `retain` filtering in `run_export` (src/main.rs lines 215-221): drop
archived repositories unless `include_archived`, then drop forks if
`exclude_forks`. -/
def retained_repositories (repositories : List Repository)
    (include_archived exclude_forks : Bool) : List Repository :=
  let repos1 := if include_archived then repositories
    else repositories.filter (fun r => !r.archived)
  if exclude_forks then repos1.filter (fun r => !r.fork) else repos1

/-- The batch-gating slice of `run_export` (src/main.rs lines 215-266):
filter archived repositories and forks per the configuration, return an empty
result for an empty list, check disk space against twice the estimated total,
and only then hand the batch to `download_repositories`. -/
def run_export_sync (d : Downloader) (env : SyncEnv)
    (repositories : List Repository) (include_archived exclude_forks : Bool)
    (available : Nat) : Except GhExportError (List (String × DownloadResult)) :=
  let repos2 := retained_repositories repositories include_archived exclude_forks
  let total_size := total_estimated_bytes repos2
  if repos2.isEmpty then Except.ok []
  else
    match check_disk_space available (total_size * 2) with
    | Except.error e => Except.error e
    | Except.ok _ => Except.ok (download_repositories d env repos2)

/-- The spec's classification of the relationship between the fetched head and
the current local branch head, as returned by the libgit2 merge analysis
(src/download.rs line 180): up-to-date, fast-forwardable, or diverged. -/
inductive MergeKind where
  | upToDate : MergeKind
  | fastForward : MergeKind
  | diverged : MergeKind
  deriving DecidableEq, Repr

/-- The local git repository state visible to `update_repository`: named
references resolved by `find_reference`, the refname HEAD points at, and the
commit the working tree currently matches. Commits are abstract ids. -/
structure GitRepoState where
  refs : String → Option Nat
  head : String
  workTree : Nat

/-- `Reference::set_target` (src/download.rs lines 186 and 193): repoint one
named reference at a commit. -/
def set_ref (s : GitRepoState) (name : String) (target : Nat) : GitRepoState :=
  { s with refs := fun n => if n = name then some target else s.refs n }

/-- `Repository::set_head` (src/download.rs lines 187 and 194). -/
def set_head_ref (s : GitRepoState) (name : String) : GitRepoState :=
  { s with head := name }

/-- `Repository::checkout_head` with force (src/download.rs lines 188 and
195-197): make the working tree match the commit HEAD resolves to. -/
def checkout_head_force (s : GitRepoState) : GitRepoState :=
  { s with workTree := (s.refs s.head).getD s.workTree }

/-- The post-fetch half of `Downloader::update_repository` (src/download.rs
lines 177-203), with the fetched commit and the libgit2 merge-analysis result
supplied as oracle inputs. Only a fast-forward analysis mutates the local
state, and only when a `refs/heads/master` reference — or, failing that, a
`refs/heads/main` reference — exists; every path returns `Ok`. -/
def update_repository_post_fetch (s : GitRepoState) (fetch_commit : Nat)
    (analysis : MergeKind) : GitRepoState :=
  if analysis = MergeKind.fastForward then
    match s.refs "refs/heads/master" with
    | some _ =>
        checkout_head_force
          (set_head_ref (set_ref s "refs/heads/master" fetch_commit)
            "refs/heads/master")
    | none =>
        match s.refs "refs/heads/main" with
        | some _ =>
            checkout_head_force
              (set_head_ref (set_ref s "refs/heads/main" fetch_commit)
                "refs/heads/main")
        | none => s
  else s

/-- Mirrors `Config` in src/config.rs (the output directory as a path). -/
structure Config where
  github_token : Option String
  output_directory : List String
  parallel_downloads : Nat
  include_archived : Bool
  exclude_forks : Bool
  shallow_clone : Bool
  deriving DecidableEq, Repr

/-- Mirrors `Config::validate` (src/config.rs lines 72-86). -/
def Config.validate (c : Config) : Except GhExportError Unit :=
  if c.parallel_downloads = 0 then
    Except.error (GhExportError.Config "Parallel downloads must be at least 1")
  else if c.parallel_downloads > 10 then
    Except.error (GhExportError.Config
      "Parallel downloads should not exceed 10 to avoid rate limiting")
  else
    Except.ok ()

/-- Status of one spawned repository task with respect to the semaphore
(src/download.rs lines 47-58): not yet holding a permit, holding a permit and
executing its transport operation, or finished (permit dropped). -/
inductive TaskStatus where
  | pending : TaskStatus
  | running : TaskStatus
  | finished : TaskStatus
  deriving DecidableEq, Repr

/-- Number of tasks currently holding a semaphore permit and executing. -/
def runningCount (s : List TaskStatus) : Nat :=
  s.countP (fun t => t = TaskStatus.running)

/-- Transitions of the concurrency gate of `download_repositories`
(src/download.rs lines 47-58): a pending task may start only by acquiring one
of the `max_concurrent` semaphore permits, which is possible only while fewer
than `max_concurrent` tasks are running; a running task may finish at any
time, dropping its permit. -/
inductive GateStep (k : Nat) : List TaskStatus → List TaskStatus → Prop where
  | acquire (s : List TaskStatus) (i : Nat) (hlen : i < s.length)
      (hi : s[i] = TaskStatus.pending) (hk : runningCount s < k) :
      GateStep k s (s.set i TaskStatus.running)
  | release (s : List TaskStatus) (i : Nat) (hlen : i < s.length)
      (hi : s[i] = TaskStatus.running) :
      GateStep k s (s.set i TaskStatus.finished)

/-- States reachable from an initial task list by gate transitions. -/
inductive GateReach (k : Nat) (init : List TaskStatus) : List TaskStatus → Prop where
  | refl : GateReach k init init
  | step (s s' : List TaskStatus) : GateReach k init s → GateStep k s s' →
      GateReach k init s'

/-- Insert a repository into a list sorted by task completion instant; used
only by the spec-side completion-order definition. -/
def insert_by_time (env : SyncEnv) (r : Repository) :
    List Repository → List Repository
  | [] => [r]
  | x :: xs =>
      if env.completionTime r.full_name ≤ env.completionTime x.full_name then
        r :: x :: xs
      else x :: insert_by_time env r xs

/-- Sort repositories by task completion instant; used only by the spec-side
completion-order definition. -/
def sort_by_completion (env : SyncEnv) : List Repository → List Repository
  | [] => []
  | r :: rs => insert_by_time env r (sort_by_completion env rs)

/-- Modelled from the spec's words, for comparison with the source: the outcome
list "in completion order (not necessarily input order)" — the same pairs, but
ordered by the instant each repository's task completed. -/
def outcomes_in_completion_order (d : Downloader) (env : SyncEnv)
    (repos : List Repository) : List (String × DownloadResult) :=
  (sort_by_completion env repos).map
    (fun repo => (repo.full_name, download_repository d env repo))

/-- Concrete owner used by the closed instances below. -/
def sampleOwner : Owner := { login := "alice", id := 1 }

/-- Concrete repository `alice/alpha`, estimated size 10 KiB. -/
def repoA : Repository :=
  { id := 1, name := "alpha", full_name := "alice/alpha", owner := sampleOwner
    fork := false, clone_url := "https://example.com/alpha.git", size := 10
    archived := false, default_branch := "main" }

/-- Concrete repository `alice/beta`, estimated size 20 KiB. -/
def repoB : Repository :=
  { id := 2, name := "beta", full_name := "alice/beta", owner := sampleOwner
    fork := false, clone_url := "https://example.com/beta.git", size := 20
    archived := false, default_branch := "main" }

/-- Concrete downloader writing under the root `out`. -/
def dl0 : Downloader := { output_dir := ["out"], token := "tok", shallow := false }

/-- A fresh world: no local path exists, every transport operation succeeds;
the task for `alice/beta` completes before the task for `alice/alpha`. -/
def envFresh : SyncEnv :=
  { pathExists := fun _ => false
    cloneResult := fun _ _ => Except.ok ()
    updateResult := fun _ => Except.ok ()
    completionTime := fun n => if n = "alice/alpha" then 2 else 1 }

/-- The fresh world with the clone of `alice/beta` failing deterministically. -/
def envOneFail : SyncEnv :=
  { envFresh with
    cloneResult := fun r _ =>
      if r = repoB then Except.error "boom" else Except.ok () }

/-- A local repository whose only branch is `refs/heads/master` at commit 5. -/
def gitMasterState : GitRepoState :=
  { refs := fun n => if n = "refs/heads/master" then some 5 else none
    head := "refs/heads/master", workTree := 5 }

/-- A local repository whose only branch is `refs/heads/main` at commit 5. -/
def gitMainState : GitRepoState :=
  { refs := fun n => if n = "refs/heads/main" then some 5 else none
    head := "refs/heads/main", workTree := 5 }

/-- A local repository with a detached HEAD and no named branch at all. -/
def gitBareState : GitRepoState :=
  { refs := fun _ => none, head := "HEAD", workTree := 5 }

theorem collect_results_eq_append (tasks acc : List (String × DownloadResult)) :
    tasks.foldl (fun results t => results ++ [t]) acc = acc ++ tasks := by
  induction tasks generalizing acc with
  | nil => simp
  | cons t ts ih => simp [List.foldl_cons, ih, List.append_assoc]

theorem collect_results_eq (tasks : List (String × DownloadResult)) :
    collect_results tasks = tasks := by
  simpa using collect_results_eq_append tasks []

theorem download_repositories_eq (d : Downloader) (env : SyncEnv)
    (repos : List Repository) :
    download_repositories d env repos =
      repos.map (fun repo => (repo.full_name, download_repository d env repo)) := by
  simp [download_repositories, collect_results_eq, spawn_tasks]

/-- C1: for every batch, `download_repositories` returns exactly one
`(name, outcome)` pair per input descriptor — the outcome list has the same
length as the descriptor list, and (descriptor full names being distinct) each
descriptor's full name appears exactly once among the returned names. -/
theorem c1_one_outcome_per_descriptor (d : Downloader) (env : SyncEnv)
    (repos : List Repository)
    (hnd : (repos.map Repository.full_name).Nodup) :
    (download_repositories d env repos).length = repos.length ∧
    ∀ r ∈ repos,
      ((download_repositories d env repos).map Prod.fst).count r.full_name = 1 := by
  rw [download_repositories_eq]
  constructor
  · simp
  · intro r hr
    have hmap : (repos.map
        (fun repo => (repo.full_name, download_repository d env repo))).map Prod.fst
        = repos.map Repository.full_name := by
      simp [List.map_map]
    rw [hmap]
    exact List.count_eq_one_of_mem hnd (List.mem_map_of_mem Repository.full_name hr)

/-- Closed instance of `c1_one_outcome_per_descriptor` on the two-repository
batch `[repoA, repoB]` in the fresh world. -/
theorem c1_witness :
    (download_repositories dl0 envFresh [repoA, repoB]).length = 2 ∧
    ((download_repositories dl0 envFresh [repoA, repoB]).map Prod.fst).count
      repoA.full_name = 1 := by
  have h := c1_one_outcome_per_descriptor dl0 envFresh [repoA, repoB]
    (by decide)
  exact ⟨h.1, h.2 repoA (by simp)⟩

/-- C4: the Deciding step branches solely on existence of the target path —
absent selects clone, present selects update; the Worker then runs the
corresponding operation; and after a clone has created the path (a second run
over the same output root), the decision is update, not clone. -/
theorem c4_decide_on_path_existence (d : Downloader) (env : SyncEnv)
    (repo : Repository) :
    (decide_action d env repo = SyncAction.update ↔
      env.pathExists (repoPath d repo) = true) ∧
    (decide_action d env repo = SyncAction.clone ↔
      env.pathExists (repoPath d repo) = false) ∧
    (env.pathExists (repoPath d repo) = false →
      download_repository d env repo =
        (match env.cloneResult repo (repoPath d repo) with
          | Except.ok _ => DownloadResult.Success
          | Except.error e => DownloadResult.Failed ("Clone failed: " ++ e))) ∧
    (env.pathExists (repoPath d repo) = true →
      download_repository d env repo =
        (match env.updateResult (repoPath d repo) with
          | Except.ok _ => DownloadResult.Success
          | Except.error e => DownloadResult.Failed ("Update failed: " ++ e))) ∧
    decide_action d (mark_cloned env (repoPath d repo)) repo = SyncAction.update := by
  cases hpe : env.pathExists (repoPath d repo) with
  | false => simp [decide_action, download_repository, mark_cloned, hpe]
  | true => simp [decide_action, download_repository, mark_cloned, hpe]

/-- Closed instance of `c4_decide_on_path_existence`: in the fresh world the
decision for `repoA` is clone and it succeeds; after the clone has created the
path, the decision is update. -/
theorem c4_witness :
    decide_action dl0 envFresh repoA = SyncAction.clone ∧
    download_repository dl0 envFresh repoA = DownloadResult.Success ∧
    decide_action dl0 (mark_cloned envFresh (repoPath dl0 repoA)) repoA =
      SyncAction.update := by
  have h := c4_decide_on_path_existence dl0 envFresh repoA
  refine ⟨h.2.1.mpr rfl, ?_, h.2.2.2.2⟩
  have h3 := h.2.2.1 rfl
  simpa [envFresh] using h3

/-- C8, counterexample: on the batch `[repoA, repoB]` in the fresh world —
where the task for `alice/beta` completes before the task for `alice/alpha` —
the engine's outcome list differs from the completion-ordered list, because the
collection loop awaits the task handles in input order. -/
theorem c8_counterexample :
    download_repositories dl0 envFresh [repoA, repoB] ≠
      outcomes_in_completion_order dl0 envFresh [repoA, repoB] := by
  decide

/-- C8, amended: the outcome list returned by the engine is in input order —
the i-th pair is the i-th descriptor's full name together with its outcome, so
the projection onto names equals the input names in input order. -/
theorem c8_outcomes_in_input_order (d : Downloader) (env : SyncEnv)
    (repos : List Repository) :
    download_repositories d env repos =
      repos.map (fun repo => (repo.full_name, download_repository d env repo)) ∧
    (download_repositories d env repos).map Prod.fst =
      repos.map Repository.full_name := by
  refine ⟨download_repositories_eq d env repos, ?_⟩
  rw [download_repositories_eq]
  simp [List.map_map]

/-- C10: `Config::validate` rejects exactly the configurations whose
`parallel_downloads` is 0 or exceeds 10, so a configuration that passes
validation runs its batch with a concurrency limit between 1 and 10. -/
theorem c10_validate_parallel_bounds (c : Config) :
    ((∃ msg, c.validate = Except.error (GhExportError.Config msg)) ↔
      (c.parallel_downloads = 0 ∨ c.parallel_downloads > 10)) ∧
    (c.validate = Except.ok () ↔
      (1 ≤ c.parallel_downloads ∧ c.parallel_downloads ≤ 10)) := by
  unfold Config.validate
  by_cases h0 : c.parallel_downloads = 0
  · simp [h0]
  · by_cases h10 : c.parallel_downloads > 10
    · simp [h0, h10]
    · simp [h0, h10]
      omega

/-- C2: a per-repository clone or update error yields `Failed(reason)` for that
repository only — the batch still returns one outcome per descriptor, and the
outcome of every other repository is independent of that repository's
transport operations (changing them, as between `env` and `env2`, leaves all
other outcomes unchanged). -/
theorem c2_failure_isolated (d : Downloader) (env env2 : SyncEnv)
    (repos : List Repository) (r : Repository) (e : String)
    (hpe : ∀ p, env.pathExists p = env2.pathExists p)
    (hclone : ∀ r2 p, r2 ≠ r → env.cloneResult r2 p = env2.cloneResult r2 p)
    (hupd : ∀ p, p ≠ repoPath d r → env.updateResult p = env2.updateResult p) :
    (download_repositories d env repos).length = repos.length ∧
    (env.pathExists (repoPath d r) = true →
      env.updateResult (repoPath d r) = Except.error e →
      download_repository d env r = DownloadResult.Failed ("Update failed: " ++ e)) ∧
    (env.pathExists (repoPath d r) = false →
      env.cloneResult r (repoPath d r) = Except.error e →
      download_repository d env r = DownloadResult.Failed ("Clone failed: " ++ e)) ∧
    (∀ r2 ∈ repos, r2 ≠ r → repoPath d r2 ≠ repoPath d r →
      download_repository d env r2 = download_repository d env2 r2) := by
  refine ⟨?_, ?_, ?_, ?_⟩
  · rw [download_repositories_eq]; simp
  · intro hex herr; simp [download_repository, hex, herr]
  · intro hex herr; simp [download_repository, hex, herr]
  · intro r2 _ hne hpath
    simp only [download_repository]
    rw [hpe (repoPath d r2), hclone r2 (repoPath d r2) hne,
      hupd (repoPath d r2) hpath]

/-- Closed instance of `c2_failure_isolated`: in the world where only the clone
of `alice/beta` fails, the batch still has two outcomes, `repoB` is `Failed`,
and `repoA`'s outcome equals its outcome in the fully healthy world. -/
theorem c2_witness :
    (download_repositories dl0 envOneFail [repoA, repoB]).length = 2 ∧
    download_repository dl0 envOneFail repoB =
      DownloadResult.Failed ("Clone failed: " ++ "boom") ∧
    download_repository dl0 envOneFail repoA =
      download_repository dl0 envFresh repoA := by
  have h := c2_failure_isolated dl0 envOneFail envFresh [repoA, repoB] repoB "boom"
    (fun p => rfl)
    (by intro r2 p hne; simp [envOneFail, envFresh, hne])
    (fun p _ => rfl)
  exact ⟨h.1, h.2.2.1 rfl (by simp [envOneFail]),
    h.2.2.2 repoA (by simp) (by decide) (by decide)⟩

/-- C3: when the available space on the output volume is smaller than twice the
summed estimated sizes of the (retained) descriptors, the batch aborts with the
distinct `InsufficientSpace` error carrying the needed and available byte
counts, and `download_repositories` is never reached, so no per-repository
work happens and no outcomes are produced. -/
theorem c3_insufficient_space_aborts (d : Downloader) (env : SyncEnv)
    (repos : List Repository) (inc exc : Bool) (available : Nat)
    (hlow : available <
      total_estimated_bytes (retained_repositories repos inc exc) * 2) :
    run_export_sync d env repos inc exc available =
      Except.error (GhExportError.InsufficientSpace
        (total_estimated_bytes (retained_repositories repos inc exc) * 2)
        available) := by
  unfold run_export_sync
  cases hE : (retained_repositories repos inc exc).isEmpty with
  | true =>
      exfalso
      rw [List.isEmpty_iff] at hE
      rw [hE] at hlow
      simp [total_estimated_bytes] at hlow
  | false =>
      simp only [hE, Bool.false_eq_true, if_false, check_disk_space, hlow, if_pos]

/-- Closed instance of `c3_insufficient_space_aborts`: one 10-KiB repository
with zero bytes available aborts needing 20480 bytes. -/
theorem c3_witness :
    run_export_sync dl0 envFresh [repoA] true false 0 =
      Except.error (GhExportError.InsufficientSpace 20480 0) := by
  have h := c3_insufficient_space_aborts dl0 envFresh [repoA] true false 0
    (by decide)
  simpa using h

/-- C5: on a fast-forwardable analysis the Worker advances the local branch —
`refs/heads/master` when it exists, otherwise `refs/heads/main` — to the
fetched commit, points HEAD at that branch, and force-checkouts so the working
tree matches the fetched commit. -/
theorem c5_fast_forward_prefers_master (s : GitRepoState) (fc : Nat) :
    (∀ m, s.refs "refs/heads/master" = some m →
      ((update_repository_post_fetch s fc MergeKind.fastForward).refs
          "refs/heads/master" = some fc ∧
        (update_repository_post_fetch s fc MergeKind.fastForward).head =
          "refs/heads/master" ∧
        (update_repository_post_fetch s fc MergeKind.fastForward).workTree = fc)) ∧
    (s.refs "refs/heads/master" = none →
      ∀ m, s.refs "refs/heads/main" = some m →
      ((update_repository_post_fetch s fc MergeKind.fastForward).refs
          "refs/heads/main" = some fc ∧
        (update_repository_post_fetch s fc MergeKind.fastForward).head =
          "refs/heads/main" ∧
        (update_repository_post_fetch s fc MergeKind.fastForward).workTree = fc)) := by
  constructor
  · intro m hm
    simp [update_repository_post_fetch, hm, checkout_head_force, set_head_ref,
      set_ref]
  · intro hmaster m hmain
    simp [update_repository_post_fetch, hmaster, hmain, checkout_head_force,
      set_head_ref, set_ref]

/-- Closed instance of `c5_fast_forward_prefers_master` on both concrete local
states: a master-only repository fast-forwarded to commit 9, and a main-only
repository fast-forwarded to commit 9. -/
theorem c5_witness :
    ((update_repository_post_fetch gitMasterState 9 MergeKind.fastForward).refs
        "refs/heads/master" = some 9 ∧
      (update_repository_post_fetch gitMasterState 9 MergeKind.fastForward).workTree
        = 9) ∧
    ((update_repository_post_fetch gitMainState 9 MergeKind.fastForward).refs
        "refs/heads/main" = some 9 ∧
      (update_repository_post_fetch gitMainState 9 MergeKind.fastForward).head
        = "refs/heads/main") := by
  have h1 := (c5_fast_forward_prefers_master gitMasterState 9).1 5 (by decide)
  have h2 := (c5_fast_forward_prefers_master gitMainState 9).2 (by decide) 5
    (by decide)
  exact ⟨⟨h1.1, h1.2.2⟩, ⟨h2.1, h2.2.1⟩⟩

/-- C6: on a diverged analysis no merge or rebase is attempted — the local
state (branch pointers, HEAD, working tree) is returned unchanged — and since
`update_repository` still returns `Ok`, the Worker reports `Success`. -/
theorem c6_diverged_left_unchanged (s : GitRepoState) (fc : Nat)
    (d : Downloader) (env : SyncEnv) (repo : Repository)
    (hex : env.pathExists (repoPath d repo) = true)
    (hok : env.updateResult (repoPath d repo) = Except.ok ()) :
    update_repository_post_fetch s fc MergeKind.diverged = s ∧
    download_repository d env repo = DownloadResult.Success := by
  constructor
  · simp [update_repository_post_fetch]
  · simp [download_repository, hex, hok]

/-- Closed instance of `c6_diverged_left_unchanged`: a diverged update of the
master-only repository leaves it untouched, and the corresponding Worker
outcome for `repoA` over an existing path is `Success`. -/
theorem c6_witness :
    update_repository_post_fetch gitMasterState 9 MergeKind.diverged =
      gitMasterState ∧
    download_repository dl0 (mark_cloned envFresh (repoPath dl0 repoA)) repoA =
      DownloadResult.Success := by
  exact c6_diverged_left_unchanged gitMasterState 9 dl0
    (mark_cloned envFresh (repoPath dl0 repoA)) repoA
    (by simp [mark_cloned]) (by simp [mark_cloned, envFresh])

/-- C9: on a fast-forwardable analysis with neither `refs/heads/master` nor
`refs/heads/main` present, the update falls through without error — no branch
pointer is moved, no checkout happens, the state is unchanged — and the Worker
outcome is `Success`. -/
theorem c9_fast_forward_without_branch (s : GitRepoState) (fc : Nat)
    (d : Downloader) (env : SyncEnv) (repo : Repository)
    (hmaster : s.refs "refs/heads/master" = none)
    (hmain : s.refs "refs/heads/main" = none)
    (hex : env.pathExists (repoPath d repo) = true)
    (hok : env.updateResult (repoPath d repo) = Except.ok ()) :
    update_repository_post_fetch s fc MergeKind.fastForward = s ∧
    download_repository d env repo = DownloadResult.Success := by
  constructor
  · simp [update_repository_post_fetch, hmaster, hmain]
  · simp [download_repository, hex, hok]

/-- Closed instance of `c9_fast_forward_without_branch` on the branchless local
repository and the Worker outcome for `repoB` over an existing path. -/
theorem c9_witness :
    update_repository_post_fetch gitBareState 9 MergeKind.fastForward =
      gitBareState ∧
    download_repository dl0 (mark_cloned envFresh (repoPath dl0 repoB)) repoB =
      DownloadResult.Success := by
  exact c9_fast_forward_without_branch gitBareState 9 dl0
    (mark_cloned envFresh (repoPath dl0 repoB)) repoB rfl rfl
    (by simp [mark_cloned]) (by simp [mark_cloned, envFresh])

theorem runningCount_initial (init : List TaskStatus)
    (hinit : ∀ t ∈ init, t = TaskStatus.pending) : runningCount init = 0 := by
  rw [runningCount, List.countP_eq_zero]
  intro a ha
  simp [hinit a ha]

theorem gate_step_preserves_bound (k : Nat) (s1 s2 : List TaskStatus)
    (hs : runningCount s1 ≤ k) (hstep : GateStep k s1 s2) :
    runningCount s2 ≤ k := by
  cases hstep with
  | acquire i hlen hi hlt =>
      have hcount := List.countP_set
        (fun t => t = TaskStatus.running) s1 i TaskStatus.running hlen
      rw [hi] at hcount
      simp at hcount
      simp only [runningCount] at hlt ⊢
      omega
  | release i hlen hi =>
      have hcount := List.countP_set
        (fun t => t = TaskStatus.running) s1 i TaskStatus.finished hlen
      rw [hi] at hcount
      simp at hcount
      simp only [runningCount] at hs ⊢
      omega

/-- C7: at no reachable instant of a batch do more than `k` tasks hold a
semaphore permit and execute their transport operation, for every concurrency
limit `k ≥ 1`: starting from a batch of spawned (pending) tasks, every state
reachable by gate transitions has at most `k` running tasks. -/
theorem c7_concurrency_bounded (k : Nat) (hk : 1 ≤ k)
    (init s : List TaskStatus)
    (hinit : ∀ t ∈ init, t = TaskStatus.pending)
    (hreach : GateReach k init s) : runningCount s ≤ k := by
  induction hreach with
  | refl =>
      rw [runningCount_initial init hinit]
      exact Nat.zero_le k
  | step s1 s2 hr hstep ih =>
      exact gate_step_preserves_bound k s1 s2 ih hstep

/-- Closed instance of `c7_concurrency_bounded`: with limit 1 and two spawned
tasks, the state after the first task acquires the permit has at most one
running task. -/
theorem c7_witness :
    runningCount ([TaskStatus.pending, TaskStatus.pending].set 0
      TaskStatus.running) ≤ 1 := by
  exact c7_concurrency_bounded 1 (by decide)
    [TaskStatus.pending, TaskStatus.pending]
    ([TaskStatus.pending, TaskStatus.pending].set 0 TaskStatus.running)
    (by decide)
    (GateReach.step _ _ GateReach.refl
      (GateStep.acquire [TaskStatus.pending, TaskStatus.pending] 0
        (by decide) rfl (by decide)))
